import Mathlib

/-
Verification of the bootloader-unlock brute-force engine
(src/unlock-bootloader.mjs) against its natural-language specification.

Modelling conventions (shallow embedding of the JavaScript source):
* A JavaScript number is modelled as `Option ℚ`: `none` is NaN, `some q` is the
  exact value `q`.  Arithmetic is exact rational arithmetic; every property
  proved below is invariant under this idealisation of IEEE-754 doubles, and
  the square root `Math.sqrt(imei)` is passed in as an explicit rational
  parameter `sqrtImei` (every double is a rational, so the set of values the
  parameter ranges over includes every value the source can compute).
* A JavaScript string is modelled as `List Char`; `toLowerCase`, `trim`,
  `includes` and the numeric conversion of strings are re-implemented below
  following the ECMAScript semantics of those operations (decimal numeric
  literals; the exotic `Infinity`/hex/octal/binary forms of ToNumber are not
  in the modelled alphabet - they never make the `<= 0` guard of
  `getLastSavedState` behave differently, because like NaN they are not <= 0).
* External I/O (`execWithString`, the device) is an oracle `device` mapping the
  attempted code to the raw output text of the unlock command; runs of the
  recursive `bruteforce` method are unrolled with explicit fuel and recorded as
  a trace of events (attempt, generator call, reboot, checkpoint save, result
  save, signal-handler registration) plus a final outcome.
-/

namespace UnlockBootloader

/-! ## JavaScript string primitives -/

/-- ECMAScript `String.prototype.toLowerCase` on the ASCII range (the only
characters the device-tool messages contain). -/
def jsToLowerChar (c : Char) : Char :=
  if 'A' ≤ c ∧ c ≤ 'Z' then Char.ofNat (c.toNat + 32) else c

def jsToLower (s : List Char) : List Char := s.map jsToLowerChar

def jsIsWhitespace (c : Char) : Bool :=
  c == ' ' || c == '\t' || c == '\n' || c == '\r'

/-- ECMAScript `String.prototype.trim`: strip whitespace from both ends. -/
def jsTrim (s : List Char) : List Char :=
  ((s.dropWhile jsIsWhitespace).reverse.dropWhile jsIsWhitespace).reverse

def startsWithL : List Char → List Char → Bool
  | _, [] => true
  | [], _ :: _ => false
  | c :: s, p :: ps => c == p && startsWithL s ps

/-- ECMAScript `String.prototype.includes`: substring containment. -/
def jsIncludes : List Char → List Char → Bool
  | [], pat => startsWithL [] pat
  | c :: t, pat => startsWithL (c :: t) pat || jsIncludes t pat

/-! ## JavaScript numbers and ToNumber -/

/-- A JavaScript number: `none` is NaN, `some q` the exact value. -/
abbrev JsNum := Option ℚ

/-- `Math.round`: round to the nearest integer, halves towards positive
infinity, i.e. the floor of `x + 1/2`. -/
def jround (x : ℚ) : ℤ := ⌊x + 1 / 2⌋

def digitVal (c : Char) : ℕ := c.toNat - 48

/-- Split a leading run of decimal digits off a character list. -/
def takeDigits : List Char → List ℕ × List Char
  | [] => ([], [])
  | c :: t =>
    if '0' ≤ c ∧ c ≤ '9' then
      let r := takeDigits t
      (digitVal c :: r.1, r.2)
    else ([], c :: t)

def digitsVal (ds : List ℕ) : ℕ := ds.foldl (fun a d => 10 * a + d) 0

def applyExp (base : ℚ) (neg : Bool) (e : ℕ) : ℚ :=
  if neg then base / 10 ^ e else base * 10 ^ e

def parseExpDigits (base : ℚ) (neg : Bool) (cs : List Char) : Option ℚ :=
  let r := takeDigits cs
  if r.1 = [] ∨ r.2 ≠ [] then none else some (applyExp base neg (digitsVal r.1))

def parseSignedExpo (base : ℚ) : List Char → Option ℚ
  | '+' :: u => parseExpDigits base false u
  | '-' :: u => parseExpDigits base true u
  | u => parseExpDigits base false u

def parseExpTail (base : ℚ) : List Char → Option ℚ
  | [] => some base
  | c :: t => if c = 'e' ∨ c = 'E' then parseSignedExpo base t else none

/-- Unsigned decimal literal: digits, optional fraction, optional exponent. -/
def parseUnsignedNum (cs : List Char) : Option ℚ :=
  let ip := takeDigits cs
  match ip.2 with
  | '.' :: t =>
    let fp := takeDigits t
    if ip.1 = [] ∧ fp.1 = [] then none
    else parseExpTail ((digitsVal ip.1 : ℚ) + (digitsVal fp.1 : ℚ) / 10 ^ fp.1.length) fp.2
  | rest => if ip.1 = [] then none else parseExpTail (digitsVal ip.1 : ℚ) rest

def parseSignedNum : List Char → Option ℚ
  | '+' :: t => parseUnsignedNum t
  | '-' :: t => (parseUnsignedNum t).map Neg.neg
  | t => parseUnsignedNum t

/-- ECMAScript ToNumber on a string: trim, empty means 0, otherwise a signed
decimal numeric literal; anything else is NaN (`none`). -/
def jsToNumber (s : List Char) : JsNum :=
  let t := jsTrim s
  if t = [] then some 0 else parseSignedNum t

/-- JavaScript `x <= c` for a number `x` and rational constant `c`:
false when `x` is NaN. -/
def jsNumLe (x : JsNum) (c : ℚ) : Bool :=
  match x with
  | none => false
  | some q => decide (q ≤ c)

/-- JavaScript `x >= c`: false when `x` is NaN. -/
def jsNumGe (x : JsNum) (c : ℚ) : Bool :=
  match x with
  | none => false
  | some q => decide (c ≤ q)

/-! ## The source constants and the code generator -/

/-- The fixed default starting code (source line 40 / 65). -/
def defaultStartCode : ℚ := 1000000000000000

/-- The fixed exhaustion ceiling (source line 143). -/
def ceiling : ℚ := 10000000000000000

/-- Models `Number(String(x).padStart(16, "0"))` from `nextCode` (line 152).
Prepending the character 0 to the decimal string of a non-negative number
never changes the value it parses back to, so for `0 ≤ x` this is `x`.  For
negative `x` the zeros are prepended before the minus sign and the result
parses as NaN whenever the string was shorter than 16 characters; we model
every negative argument as NaN (a negative sum would need a negative code,
which no run produces: codes are non-negative and the step is added). -/
def padStart16 (x : ℚ) : Option ℚ := if 0 ≤ x then some x else none

/-- `nextCode` (source lines 151-153):
`Math.round(Number(String(currentCode + Math.sqrt(imei) * 1024).padStart(16, "0")))`.
`sqrtImei` is the value of `Math.sqrt(imei)`.  NaN propagates. -/
def nextCode (code : JsNum) (sqrtImei : ℚ) : JsNum :=
  match code with
  | none => none
  | some c => (padStart16 (c + sqrtImei * 1024)).map (fun x => ((jround x : ℤ) : ℚ))

/-! ## State store -/

/-- `getLastSavedState` (source lines 49-58): `file` is the checkpoint file's
content, `none` when `readFileSync` threw (file absent).  The guard is
`!content || content.trim() <= 0`; comparing a string against 0 coerces the
string with ToNumber, and a NaN comparison is false, so non-numeric content
passes the guard and `Number(content)` (= NaN) is returned. -/
def getLastSavedState (file : Option (List Char)) : Option JsNum :=
  match file with
  | none => none
  | some content =>
    if content = [] then none
    else if jsNumLe (jsToNumber (jsTrim content)) 0 then none
    else some (jsToNumber content)

/-- Data argument of a `fs.writeFileSync` call: the source passes a string in
`saveBootloaderCode` and a raw number in `saveLastState`. -/
inductive FsData
  | strData (s : List Char)
  | numData (x : JsNum)

/-- Models the documented contract of Node's `fs.writeFileSync` for the data
argument: it accepts a string (or buffer view) and writes it; any other type,
in particular a number, is rejected with `TypeError [ERR_INVALID_ARG_TYPE]`
("The \x22data\x22 argument must be of type string or an instance of Buffer,
TypedArray, or DataView").  `ok` carries the text written. -/
def writeFileSync (data : FsData) : Except String (List Char) :=
  match data with
  | FsData.strData s => Except.ok s
  | FsData.numData _ => Except.error "TypeError ERR_INVALID_ARG_TYPE"

/-- `saveLastState` (source lines 214-216): `writeFileSync(file, code)` with
`code` the raw number, not a string. -/
def saveLastState (code : JsNum) : Except String (List Char) :=
  writeFileSync (FsData.numData code)

/-! ## Response classifier -/

/-- Modelled from the spec: the three known device-tool message fragments live
in `utils/_const.mjs`, which is not part of the sources; the classifier is
therefore stated and proved for every choice of fragment values. -/
structure AdbMessages where
  commandInvalid : List Char
  oemUnlockFail : List Char
  oemUnlockSuccess : List Char

/-- Result of one `attemptCode` call: a thrown `CommandInvalidException`, a
thrown `UnknownOutputException`, or the returned boolean. -/
inductive AttemptOutcome
  | commandInvalidError
  | unknownOutputError
  | result (b : Bool)
deriving DecidableEq

/-- `attemptCode` (source lines 163-185): lower-case and trim the raw output,
then test the three fragments by `includes` in source order; unknown output
throws under `throwOnUnknownErrors` and is otherwise treated as a failed
attempt. -/
def attemptCode (msgs : AdbMessages) (throwOnUnknownErrors : Bool)
    (rawOutput : List Char) : AttemptOutcome :=
  let adbOutput := jsTrim (jsToLower rawOutput)
  if jsIncludes adbOutput msgs.commandInvalid then AttemptOutcome.commandInvalidError
  else if jsIncludes adbOutput msgs.oemUnlockFail then AttemptOutcome.result false
  else if jsIncludes adbOutput msgs.oemUnlockSuccess then AttemptOutcome.result true
  else if throwOnUnknownErrors then AttemptOutcome.unknownOutputError
  else AttemptOutcome.result false

/-! ## The engine -/

/-- The configuration read from `config.json` (source line 36); a zero interval
models a falsy (disabled) value. -/
structure Config where
  autorebootAfter : ℕ
  saveStateAfter : ℕ
  throwOnUnknownErrors : Bool

/-- The four instance fields of class `Bruteforce` (source lines 39-42). -/
structure EngineState where
  attempt : ℕ
  currentCode : JsNum
  lastSavedAttempt : ℕ
  lastRebootAttempt : ℕ

/-- Observable events of a run, in the order they are performed. -/
inductive Ev
  | rebootEv
  | attemptEv (code : JsNum)
  | genEv (code : JsNum)
  | saveStateEv (code : JsNum)
  | saveResultEv (code : JsNum)
  | registerHandlersEv
deriving DecidableEq

/-- How a run ends: the found code, the thrown `CodeNotFoundException`, one of
the two classifier exceptions, or the fuel of the model ran out (the run is
still going). -/
inductive Outcome
  | found (code : JsNum)
  | codeNotFound (msg : String)
  | commandInvalid
  | unknownOutput
  | outOfFuel
deriving DecidableEq

/-- The autoreboot block (source lines 114-119). -/
def rebootStep (cfg : Config) (st : EngineState) : List Ev × EngineState :=
  if cfg.autorebootAfter ≠ 0 ∧
      (cfg.autorebootAfter : ℤ) - 1 ≤ (st.attempt : ℤ) - (st.lastRebootAttempt : ℤ) then
    ([Ev.rebootEv], { st with lastRebootAttempt := st.attempt })
  else ([], st)

/-- The checkpoint block (source lines 127-132); the event records that
`saveLastState(this.currentCode)` was invoked (its rejected promise is not
awaited at line 130, so the loop continues regardless; the write itself is
modelled by `saveLastState` above). -/
def saveStep (cfg : Config) (st : EngineState) : List Ev × EngineState :=
  if cfg.saveStateAfter ≠ 0 ∧
      (cfg.saveStateAfter : ℤ) - 1 ≤ (st.attempt : ℤ) - (st.lastSavedAttempt : ℤ) then
    ([Ev.saveStateEv st.currentCode], { st with lastSavedAttempt := st.attempt })
  else ([], st)

/-- The recursive `bruteforce` method (source lines 96-148), unrolled with
fuel.  One iteration: attempt the current code, classify; on success save the
result and return; on a rejected attempt run the autoreboot block, then the
checkpoint block, then generate the next code and throw
`CodeNotFoundException` if it reached the ceiling, else recurse. -/
def bruteforce (msgs : AdbMessages) (cfg : Config) (sqrtImei : ℚ)
    (device : JsNum → List Char) : ℕ → EngineState → List Ev × Outcome
  | 0, _ => ([], Outcome.outOfFuel)
  | fuel + 1, st =>
    match attemptCode msgs cfg.throwOnUnknownErrors (device st.currentCode) with
    | AttemptOutcome.commandInvalidError =>
      ([Ev.attemptEv st.currentCode], Outcome.commandInvalid)
    | AttemptOutcome.unknownOutputError =>
      ([Ev.attemptEv st.currentCode], Outcome.unknownOutput)
    | AttemptOutcome.result true =>
      ([Ev.attemptEv st.currentCode, Ev.saveResultEv st.currentCode],
        Outcome.found st.currentCode)
    | AttemptOutcome.result false =>
      let rb := rebootStep cfg st
      let sv := saveStep cfg rb.2
      let next := nextCode sv.2.currentCode sqrtImei
      if jsNumGe next ceiling then
        (Ev.attemptEv st.currentCode :: (rb.1 ++ sv.1 ++ [Ev.genEv next]),
          Outcome.codeNotFound "No combination found")
      else
        let rest := bruteforce msgs cfg sqrtImei device fuel { sv.2 with currentCode := next }
        (Ev.attemptEv st.currentCode :: (rb.1 ++ sv.1 ++ Ev.genEv next :: rest.1), rest.2)

/-- The `start` method (source lines 63-88): reset the attempt counter, load
the checkpoint (`??` falls back to the default only for null, so a NaN read
survives), reboot, generate the first candidate, run the loop - and only
after `await this.bruteforce()` has returned, register the SIGINT/SIGTERM
handlers (source lines 82-87); an abnormal (thrown) loop exit never reaches
the registration. -/
def start (msgs : AdbMessages) (cfg : Config) (sqrtImei : ℚ)
    (device : JsNum → List Char) (file : Option (List Char)) (fuel : ℕ) :
    List Ev × Outcome :=
  let init : JsNum := (getLastSavedState file).getD (some defaultStartCode)
  let first := nextCode init sqrtImei
  let r := bruteforce msgs cfg sqrtImei device fuel
    { attempt := 0, currentCode := first, lastSavedAttempt := 0, lastRebootAttempt := 0 }
  (Ev.rebootEv :: Ev.genEv first :: r.1 ++
    (match r.2 with
     | Outcome.found _ => [Ev.registerHandlersEv]
     | _ => []), r.2)

/-! ## Trace observations -/

/-- The codes submitted to the device, in order. -/
def attemptsOf (tr : List Ev) : List JsNum :=
  tr.filterMap (fun e => match e with | Ev.attemptEv c => some c | _ => none)

/-- The generator outputs, in order. -/
def gensOf (tr : List Ev) : List JsNum :=
  tr.filterMap (fun e => match e with | Ev.genEv c => some c | _ => none)

/-- How many times `saveLastState` was invoked by the loop. -/
def countSaves (tr : List Ev) : ℕ :=
  (tr.filter (fun e => match e with | Ev.saveStateEv _ => true | _ => false)).length

/-- For each attempt in the trace, whether a termination handler was already
registered when the attempt was made. -/
def handlerFlags : List Ev → Bool → List Bool
  | [], _ => []
  | Ev.registerHandlersEv :: t, _ => handlerFlags t true
  | Ev.attemptEv _ :: t, inst => inst :: handlerFlags t inst
  | _ :: t, inst => handlerFlags t inst

def handlerActiveAtAttempts (tr : List Ev) : List Bool := handlerFlags tr false

def belowCeiling (x : JsNum) : Bool := !jsNumGe x ceiling

/-- The generator outputs of an exhausted run, as the exhaustion boundary
demands them: at least one call, every call but the last below the ceiling,
the last one at or above it. -/
def exhaustPattern : List JsNum → Bool
  | [] => false
  | [g] => jsNumGe g ceiling
  | g :: g2 :: t => belowCeiling g && exhaustPattern (g2 :: t)

/-- The exhaustion-boundary condition on a finished run: every code submitted
after the entry one is below the ceiling, and the run ends in
`CodeNotFoundException` exactly when the generator-output sequence crosses
the ceiling, at the first crossing call. -/
def exhaustWellTimed (r : List Ev × Outcome) : Bool :=
  ((attemptsOf r.1).drop 1).all belowCeiling &&
  (match r.2 with
   | Outcome.codeNotFound _ => exhaustPattern (gensOf r.1)
   | _ => (gensOf r.1).all belowCeiling)

/-! ## Spec-side definitions (for comparison against the source) -/

/-- Plain text containing one non-negative integer, following the spec's
words in section 6. -/
def isNonNegIntegerText (s : List Char) : Bool :=
  decide (s ≠ []) && s.all (fun c => decide ('0' ≤ c) && decide (c ≤ '9'))

/-- Truncation toward zero ("truncated to an integer"). -/
def jtrunc (x : ℚ) : ℤ := if 0 ≤ x then ⌊x⌋ else -⌊-x⌋

/-- The generator formula as the spec pins it in section 4.1: the step
`sqrt(identifier) * 1024` truncated to an integer (and zero-padded, which
does not change its value) before the numeric add, then round the result. -/
def specPinnedNextCode (c : ℚ) (sqrtImei : ℚ) : ℤ :=
  jround (c + (jtrunc (sqrtImei * 1024) : ℚ))

/-- The simpler function claimed equivalent to `nextCode` on codes at or
above the default starting code: `round(c + sqrt(imei) * 1024)`. -/
def simpleNextCode (c : ℚ) (sqrtImei : ℚ) : ℤ := jround (c + sqrtImei * 1024)

/-- The IEEE-754 double closest to the square root of 3, i.e. the exact value
`Math.sqrt(3)` evaluates to: its significand is the nearest integer to
`sqrt 3 * 2^52`.  Used as the generator parameter of a device with
identifier 3. -/
def sqrt3Double : ℚ := 7800463371553962 / 4503599627370496

/-! ## Helper lemmas -/

lemma jround_eq_of (x : ℚ) (n : ℤ) (h1 : (n : ℚ) ≤ x + 1 / 2)
    (h2 : x + 1 / 2 < (n : ℚ) + 1) : jround x = n :=
  Int.floor_eq_iff.mpr ⟨h1, h2⟩

lemma nextCode_some_eq (c s : ℚ) (n : ℤ) (h0 : 0 ≤ c + s * 1024)
    (h1 : (n : ℚ) ≤ c + s * 1024 + 1 / 2) (h2 : c + s * 1024 + 1 / 2 < (n : ℚ) + 1) :
    nextCode (some c) s = some ((n : ℤ) : ℚ) := by
  simp [nextCode, padStart16, h0, jround_eq_of _ n h1 h2]

/-! ## C7 -/

/-- C7: for every code reachable in a run (a non-negative number) and every
device identifier (a positive integer, so its square root is at least 1),
the generator `nextCode` produces a value greater than or equal to its
input, making `currentCode` monotonically non-decreasing across the run. -/
theorem nextCode_monotone_step :
    ∀ (c sqrtImei : ℚ), 0 ≤ c → 1 ≤ sqrtImei →
      ∃ q : ℚ, nextCode (some c) sqrtImei = some q ∧ c ≤ q := by
  intro c s hc hs
  have hs1024 : (1024 : ℚ) ≤ s * 1024 := by nlinarith
  have hsum : (0 : ℚ) ≤ c + s * 1024 := by linarith
  refine ⟨((jround (c + s * 1024) : ℤ) : ℚ), ?_, ?_⟩
  · simp [nextCode, padStart16, hsum]
  · have h := Int.sub_one_lt_floor (c + s * 1024 + 1 / 2)
    unfold jround
    linarith

/-- C7 witness: a concrete instance of `nextCode_monotone_step`. -/
theorem nextCode_monotone_step_witness :
    ∃ q : ℚ, nextCode (some 1000000000000000) 2 = some q ∧ (1000000000000000 : ℚ) ≤ q :=
  nextCode_monotone_step 1000000000000000 2 (by norm_num) (by norm_num)

/-! ## C8 -/

/-- C8 counterexample: for device identifier 3 (whose square root evaluates
to `sqrt3Double`) and the default starting code, `nextCode` does not compute
the spec's pinned formula: the spec truncates the step `sqrt(3) * 1024 ≈
1773.62` to 1773 before the add, while the source adds the step at full
precision and rounds the sum, giving `... 1774`. -/
theorem nextCode_differs_from_pinned_formula :
    nextCode (some 1000000000000000) sqrt3Double ≠
      some ((specPinnedNextCode 1000000000000000 sqrt3Double : ℤ) : ℚ) := by
  have h1 : nextCode (some 1000000000000000) sqrt3Double =
      some ((1000000000001774 : ℤ) : ℚ) := by
    apply nextCode_some_eq <;> (unfold sqrt3Double; norm_num)
  have ht : jtrunc (sqrt3Double * 1024) = 1773 := by
    unfold jtrunc
    rw [if_pos (by unfold sqrt3Double; norm_num)]
    rw [Int.floor_eq_iff]
    unfold sqrt3Double
    norm_num
  have h2 : specPinnedNextCode 1000000000000000 sqrt3Double = 1000000000001773 := by
    unfold specPinnedNextCode
    rw [ht]
    apply jround_eq_of <;> norm_num
  rw [h1, h2]
  intro h
  rw [Option.some_inj] at h
  norm_num at h

/-- C8 (amended): `nextCode` adds the step `sqrt(imei) * 1024` at full
precision (no truncation), zero-pads the decimal string of the sum - an
operation that never changes the parsed value of the non-negative sums a run
produces - and rounds the result half-up; i.e. it computes exactly
`round(code + sqrt(imei) * 1024)`. -/
theorem nextCode_full_precision_formula :
    ∀ (c sqrtImei : ℚ), 0 ≤ c → 0 ≤ sqrtImei →
      nextCode (some c) sqrtImei = some ((jround (c + sqrtImei * 1024) : ℤ) : ℚ) := by
  intro c s hc hs
  have h2 : (0 : ℚ) ≤ s * 1024 := mul_nonneg hs (by norm_num)
  simp [nextCode, padStart16, show (0 : ℚ) ≤ c + s * 1024 by linarith]

/-- C8 witness: a concrete instance of `nextCode_full_precision_formula`. -/
theorem nextCode_full_precision_formula_witness :
    nextCode (some 5) 3 = some ((jround ((5 : ℚ) + 3 * 1024) : ℤ) : ℚ) :=
  nextCode_full_precision_formula 5 3 (by norm_num) (by norm_num)

/-! ## C10 -/

/-- C10: on every input code at or above the default starting code (as
produced in any run), the zero-padding inside `nextCode` is an identity
operation and `nextCode` equals the simpler function
`round(c + sqrt(imei) * 1024)`. -/
theorem nextCode_refines_simple_round :
    ∀ (c sqrtImei : ℚ), 1000000000000000 ≤ c → 0 ≤ sqrtImei →
      nextCode (some c) sqrtImei = some ((simpleNextCode c sqrtImei : ℤ) : ℚ) := by
  intro c s hc hs
  have h2 : (0 : ℚ) ≤ s * 1024 := mul_nonneg hs (by norm_num)
  simp [nextCode, padStart16, simpleNextCode, show (0 : ℚ) ≤ c + s * 1024 by linarith]

/-- C10 witness: a concrete instance of `nextCode_refines_simple_round`. -/
theorem nextCode_refines_simple_round_witness :
    nextCode (some 1000000000000000) 2 =
      some ((simpleNextCode 1000000000000000 2 : ℤ) : ℚ) :=
  nextCode_refines_simple_round 1000000000000000 2 (by norm_num) (by norm_num)

/-! ## C9 -/

/-- C9: `saveLastState` never overwrites the checkpoint file at all - it
passes the raw number as the data argument of `writeFileSync`, which rejects
it with a TypeError, for every identity and every code; in particular the
file content never becomes the decimal text of the code. -/
theorem saveLastState_rejects_number_data :
    ∀ code : JsNum, saveLastState code = Except.error "TypeError ERR_INVALID_ARG_TYPE" :=
  fun _ => rfl

/-! ## C4 -/

/-- C4: classification of one attempt's output is by substring matching in
the fixed priority order of the source: the command-invalid fragment raises
the fatal unsupported-command error; otherwise the failure fragment yields
Rejected (false); otherwise the success fragment yields Accepted (true); any
other output raises the unrecognized-output error under
`throwOnUnknownErrors` and yields Rejected under the permissive policy. -/
theorem attemptCode_priority_order :
    ∀ (msgs : AdbMessages) (flag : Bool) (out : List Char),
      (jsIncludes (jsTrim (jsToLower out)) msgs.commandInvalid = true →
        attemptCode msgs flag out = AttemptOutcome.commandInvalidError) ∧
      (jsIncludes (jsTrim (jsToLower out)) msgs.commandInvalid = false →
        jsIncludes (jsTrim (jsToLower out)) msgs.oemUnlockFail = true →
        attemptCode msgs flag out = AttemptOutcome.result false) ∧
      (jsIncludes (jsTrim (jsToLower out)) msgs.commandInvalid = false →
        jsIncludes (jsTrim (jsToLower out)) msgs.oemUnlockFail = false →
        jsIncludes (jsTrim (jsToLower out)) msgs.oemUnlockSuccess = true →
        attemptCode msgs flag out = AttemptOutcome.result true) ∧
      (jsIncludes (jsTrim (jsToLower out)) msgs.commandInvalid = false →
        jsIncludes (jsTrim (jsToLower out)) msgs.oemUnlockFail = false →
        jsIncludes (jsTrim (jsToLower out)) msgs.oemUnlockSuccess = false →
        attemptCode msgs flag out =
          if flag then AttemptOutcome.unknownOutputError else AttemptOutcome.result false) := by
  intro msgs flag out
  refine ⟨?_, ?_, ?_, ?_⟩ <;> (intros; simp [attemptCode, *])

/-- C4 witness: a concrete instance of `attemptCode_priority_order`: mixed
case output matching only the failure fragment classifies as Rejected even
under the strict policy. -/
theorem attemptCode_priority_order_witness :
    attemptCode ⟨"bad".data, "fail".data, "ok".data⟩ true ("FAIL".data) =
      AttemptOutcome.result false :=
  (attemptCode_priority_order ⟨"bad".data, "fail".data, "ok".data⟩ true
    ("FAIL".data)).2.1 (by decide) (by decide)

/-! ## C6 -/

/-- C6 counterexample: the claimed characterisation of `getLastSavedState`
fails in both directions.  The file content `0` is a non-negative integer,
yet the source returns null for it (the guard `content.trim() <= 0` holds);
the content `abc` is not a non-negative integer, yet the source does not
return null for it - the guard's string-to-number coercion yields NaN, every
NaN comparison is false, and `Number("abc")` (NaN) is returned. -/
theorem getLastSavedState_zero_and_nonnumeric :
    isNonNegIntegerText ("0".data) = true ∧
    getLastSavedState (some ("0".data)) = none ∧
    isNonNegIntegerText ("abc".data) = false ∧
    getLastSavedState (some ("abc".data)) = some none := by
  refine ⟨by decide, by decide, by decide, by decide⟩

/-- C6 (amended): `getLastSavedState` returns null exactly when the
checkpoint file is absent, empty, or its trimmed content coerces to a
numeric value less than or equal to 0 (so also for the valid checkpoint
content `0`, and for whitespace-only content, which coerces to 0); in every
other case it returns `Number(content)`, which is NaN for non-numeric
content and may be a positive non-integer. -/
theorem getLastSavedState_guard_characterisation :
    ∀ content : List Char,
      (getLastSavedState none = none) ∧
      (getLastSavedState (some content) = none ↔
        content = [] ∨ jsNumLe (jsToNumber (jsTrim content)) 0 = true) ∧
      (getLastSavedState (some content) = none ∨
        getLastSavedState (some content) = some (jsToNumber content)) := by
  intro content
  refine ⟨rfl, ?_, ?_⟩
  · by_cases h1 : content = []
    · simp [getLastSavedState, h1]
    · by_cases h2 : jsNumLe (jsToNumber (jsTrim content)) 0 = true
      · simp [getLastSavedState, h1, h2]
      · simp [getLastSavedState, h1, h2]
  · by_cases h1 : content = []
    · simp [getLastSavedState, h1]
    · by_cases h2 : jsNumLe (jsToNumber (jsTrim content)) 0 = true
      · simp [getLastSavedState, h1, h2]
      · simp [getLastSavedState, h1, h2]

/-- C6 witness: `getLastSavedState_guard_characterisation` instantiated at a
valid positive checkpoint content. -/
theorem getLastSavedState_guard_characterisation_witness :
    (getLastSavedState none = none) ∧
    (getLastSavedState (some ("7".data)) = none ↔
      "7".data = [] ∨ jsNumLe (jsToNumber (jsTrim ("7".data))) 0 = true) ∧
    (getLastSavedState (some ("7".data)) = none ∨
      getLastSavedState (some ("7".data)) = some (jsToNumber ("7".data))) :=
  getLastSavedState_guard_characterisation ("7".data)

/-! ## Trace bookkeeping lemmas -/

@[simp] lemma attemptsOf_nil : attemptsOf [] = [] := rfl

@[simp] lemma attemptsOf_cons_reboot (t : List Ev) :
    attemptsOf (Ev.rebootEv :: t) = attemptsOf t := by simp [attemptsOf]

@[simp] lemma attemptsOf_cons_attempt (c : JsNum) (t : List Ev) :
    attemptsOf (Ev.attemptEv c :: t) = c :: attemptsOf t := by simp [attemptsOf]

@[simp] lemma attemptsOf_cons_gen (c : JsNum) (t : List Ev) :
    attemptsOf (Ev.genEv c :: t) = attemptsOf t := by simp [attemptsOf]

@[simp] lemma attemptsOf_cons_save (c : JsNum) (t : List Ev) :
    attemptsOf (Ev.saveStateEv c :: t) = attemptsOf t := by simp [attemptsOf]

@[simp] lemma attemptsOf_cons_saveResult (c : JsNum) (t : List Ev) :
    attemptsOf (Ev.saveResultEv c :: t) = attemptsOf t := by simp [attemptsOf]

@[simp] lemma attemptsOf_cons_register (t : List Ev) :
    attemptsOf (Ev.registerHandlersEv :: t) = attemptsOf t := by simp [attemptsOf]

@[simp] lemma attemptsOf_append (l₁ l₂ : List Ev) :
    attemptsOf (l₁ ++ l₂) = attemptsOf l₁ ++ attemptsOf l₂ := by simp [attemptsOf]

@[simp] lemma gensOf_nil : gensOf [] = [] := rfl

@[simp] lemma gensOf_cons_reboot (t : List Ev) :
    gensOf (Ev.rebootEv :: t) = gensOf t := by simp [gensOf]

@[simp] lemma gensOf_cons_attempt (c : JsNum) (t : List Ev) :
    gensOf (Ev.attemptEv c :: t) = gensOf t := by simp [gensOf]

@[simp] lemma gensOf_cons_gen (c : JsNum) (t : List Ev) :
    gensOf (Ev.genEv c :: t) = c :: gensOf t := by simp [gensOf]

@[simp] lemma gensOf_cons_save (c : JsNum) (t : List Ev) :
    gensOf (Ev.saveStateEv c :: t) = gensOf t := by simp [gensOf]

@[simp] lemma gensOf_cons_saveResult (c : JsNum) (t : List Ev) :
    gensOf (Ev.saveResultEv c :: t) = gensOf t := by simp [gensOf]

@[simp] lemma gensOf_cons_register (t : List Ev) :
    gensOf (Ev.registerHandlersEv :: t) = gensOf t := by simp [gensOf]

@[simp] lemma gensOf_append (l₁ l₂ : List Ev) :
    gensOf (l₁ ++ l₂) = gensOf l₁ ++ gensOf l₂ := by simp [gensOf]

@[simp] lemma countSaves_nil : countSaves [] = 0 := rfl

@[simp] lemma countSaves_cons_reboot (t : List Ev) :
    countSaves (Ev.rebootEv :: t) = countSaves t := by simp [countSaves]

@[simp] lemma countSaves_cons_attempt (c : JsNum) (t : List Ev) :
    countSaves (Ev.attemptEv c :: t) = countSaves t := by simp [countSaves]

@[simp] lemma countSaves_cons_gen (c : JsNum) (t : List Ev) :
    countSaves (Ev.genEv c :: t) = countSaves t := by simp [countSaves]

@[simp] lemma countSaves_cons_save (c : JsNum) (t : List Ev) :
    countSaves (Ev.saveStateEv c :: t) = countSaves t + 1 := by simp [countSaves]

@[simp] lemma countSaves_cons_saveResult (c : JsNum) (t : List Ev) :
    countSaves (Ev.saveResultEv c :: t) = countSaves t := by simp [countSaves]

@[simp] lemma countSaves_cons_register (t : List Ev) :
    countSaves (Ev.registerHandlersEv :: t) = countSaves t := by simp [countSaves]

@[simp] lemma countSaves_append (l₁ l₂ : List Ev) :
    countSaves (l₁ ++ l₂) = countSaves l₁ + countSaves l₂ := by
  simp [countSaves, List.filter_append]

/-! ## Step lemmas for the reboot and checkpoint blocks -/

lemma rebootStep_attempt (cfg : Config) (st : EngineState) :
    (rebootStep cfg st).2.attempt = st.attempt := by
  unfold rebootStep; split <;> rfl

lemma rebootStep_lastSavedAttempt (cfg : Config) (st : EngineState) :
    (rebootStep cfg st).2.lastSavedAttempt = st.lastSavedAttempt := by
  unfold rebootStep; split <;> rfl

lemma rebootStep_currentCode (cfg : Config) (st : EngineState) :
    (rebootStep cfg st).2.currentCode = st.currentCode := by
  unfold rebootStep; split <;> rfl

lemma saveStep_attempt (cfg : Config) (st : EngineState) :
    (saveStep cfg st).2.attempt = st.attempt := by
  unfold saveStep; split <;> rfl

lemma saveStep_currentCode (cfg : Config) (st : EngineState) :
    (saveStep cfg st).2.currentCode = st.currentCode := by
  unfold saveStep; split <;> rfl

@[simp] lemma attemptsOf_rebootStep (cfg : Config) (st : EngineState) :
    attemptsOf (rebootStep cfg st).1 = [] := by
  unfold rebootStep; split <;> simp

@[simp] lemma attemptsOf_saveStep (cfg : Config) (st : EngineState) :
    attemptsOf (saveStep cfg st).1 = [] := by
  unfold saveStep; split <;> simp

@[simp] lemma gensOf_rebootStep (cfg : Config) (st : EngineState) :
    gensOf (rebootStep cfg st).1 = [] := by
  unfold rebootStep; split <;> simp

@[simp] lemma gensOf_saveStep (cfg : Config) (st : EngineState) :
    gensOf (saveStep cfg st).1 = [] := by
  unfold saveStep; split <;> simp

@[simp] lemma countSaves_rebootStep (cfg : Config) (st : EngineState) :
    countSaves (rebootStep cfg st).1 = 0 := by
  unfold rebootStep; split <;> simp

@[simp] lemma not_register_rebootStep (cfg : Config) (st : EngineState) :
    Ev.registerHandlersEv ∉ (rebootStep cfg st).1 := by
  unfold rebootStep; split <;> simp

@[simp] lemma not_register_saveStep (cfg : Config) (st : EngineState) :
    Ev.registerHandlersEv ∉ (saveStep cfg st).1 := by
  unfold saveStep; split <;> simp

lemma not_register_bruteforce (msgs : AdbMessages) (cfg : Config) (sqrtImei : ℚ)
    (device : JsNum → List Char) :
    ∀ (fuel : ℕ) (st : EngineState),
      Ev.registerHandlersEv ∉ (bruteforce msgs cfg sqrtImei device fuel st).1 := by
  intro fuel
  induction fuel with
  | zero => intro st; simp [bruteforce]
  | succ n ih =>
    intro st
    cases hcl : attemptCode msgs cfg.throwOnUnknownErrors (device st.currentCode) with
    | commandInvalidError => simp [bruteforce, hcl]
    | unknownOutputError => simp [bruteforce, hcl]
    | result b =>
      cases b with
      | true => simp [bruteforce, hcl]
      | false =>
        simp only [bruteforce, hcl]
        split <;> simp [ih]

/-! ## C1 -/

lemma handlerFlags_append_of_not_register :
    ∀ (l₁ l₂ : List Ev) (inst : Bool), Ev.registerHandlersEv ∉ l₁ →
      handlerFlags (l₁ ++ l₂) inst = handlerFlags l₁ inst ++ handlerFlags l₂ inst := by
  intro l₁
  induction l₁ with
  | nil => intro l₂ inst _; simp [handlerFlags]
  | cons a t ih =>
    intro l₂ inst h
    have h2 : Ev.registerHandlersEv ∉ t := fun hm => h (List.mem_cons_of_mem _ hm)
    cases a
    case registerHandlersEv => exact absurd (List.mem_cons_self _ _) h
    all_goals simp [handlerFlags, ih _ _ h2]

lemma handlerFlags_all_not_of_not_register :
    ∀ l : List Ev, Ev.registerHandlersEv ∉ l →
      (handlerFlags l false).all (fun b => !b) = true := by
  intro l
  induction l with
  | nil => intro _; simp [handlerFlags]
  | cons a t ih =>
    intro h
    have h2 : Ev.registerHandlersEv ∉ t := fun hm => h (List.mem_cons_of_mem _ hm)
    cases a
    case registerHandlersEv => exact absurd (List.mem_cons_self _ _) h
    all_goals simp [handlerFlags, ih h2]

/-- C1: the claim fails on the source.  The SIGINT/SIGTERM handlers are
registered only after `await this.bruteforce()` has returned (source lines
82-87), which happens only when the search already succeeded; therefore at
every attempt of every run - whatever the configuration, device behaviour,
checkpoint file or fuel - no termination handler is installed yet, and an
external interruption during the search loop ends the process without the
checkpoint write the spec requires. -/
theorem handler_inactive_at_every_attempt :
    ∀ (msgs : AdbMessages) (cfg : Config) (sqrtImei : ℚ) (device : JsNum → List Char)
      (file : Option (List Char)) (fuel : ℕ),
      (handlerActiveAtAttempts
        (start msgs cfg sqrtImei device file fuel).1).all (fun b => !b) = true := by
  intro msgs cfg s d file fuel
  simp only [start, handlerActiveAtAttempts, handlerFlags, List.append_eq]
  rw [handlerFlags_append_of_not_register _ _ _ (not_register_bruteforce msgs cfg s d fuel _)]
  rw [List.all_append, Bool.and_eq_true]
  constructor
  · exact handlerFlags_all_not_of_not_register _ (not_register_bruteforce msgs cfg s d fuel _)
  · split <;> simp [handlerFlags]

/-! ## C2 -/

/-- C2: the claim fails on the source.  `this.attempt` is never incremented
anywhere in the class, so whenever the engine state carries the initial
counters (as every `start` does) and the checkpoint interval is at least 2,
the guard `this.attempt - this.lastSavedAttempt >= saveStateAfter - 1` can
never hold and `saveLastState` is never invoked, no matter how many attempts
the device rejects. -/
theorem no_checkpoint_when_interval_at_least_two :
    ∀ (msgs : AdbMessages) (cfg : Config) (sqrtImei : ℚ) (device : JsNum → List Char)
      (fuel : ℕ) (st : EngineState),
      st.attempt = 0 → st.lastSavedAttempt = 0 → 2 ≤ cfg.saveStateAfter →
      countSaves (bruteforce msgs cfg sqrtImei device fuel st).1 = 0 := by
  intro msgs cfg s d fuel
  induction fuel with
  | zero => intro st _ _ _; simp [bruteforce]
  | succ n ih =>
    intro st h1 h2 h3
    have hsv : saveStep cfg (rebootStep cfg st).2 = ([], (rebootStep cfg st).2) := by
      unfold saveStep
      rw [if_neg]
      rintro ⟨-, hle⟩
      rw [rebootStep_attempt, rebootStep_lastSavedAttempt, h1, h2] at hle
      omega
    cases hcl : attemptCode msgs cfg.throwOnUnknownErrors (d st.currentCode) with
    | commandInvalidError => simp [bruteforce, hcl]
    | unknownOutputError => simp [bruteforce, hcl]
    | result b =>
      cases b with
      | true => simp [bruteforce, hcl]
      | false =>
        simp only [bruteforce, hcl, hsv]
        split
        · simp
        · simp only [attemptsOf_cons_attempt, countSaves_cons_attempt, countSaves_append,
            countSaves_rebootStep, countSaves_nil, countSaves_cons_gen]
          rw [ih _ (by simp [rebootStep_attempt, h1]) (by simp [rebootStep_lastSavedAttempt, h2]) h3]

/-- C2 witness: `no_checkpoint_when_interval_at_least_two` instantiated on a
deterministic all-rejecting device with checkpoint interval 2 and the
engine's initial state. -/
theorem no_checkpoint_when_interval_at_least_two_witness :
    countSaves (bruteforce ⟨"bad".data, "fail".data, "ok".data⟩ ⟨0, 2, false⟩ 2
      (fun _ => "fail".data) 5
      ⟨0, some defaultStartCode, 0, 0⟩).1 = 0 :=
  no_checkpoint_when_interval_at_least_two ⟨"bad".data, "fail".data, "ok".data⟩
    ⟨0, 2, false⟩ 2 (fun _ => "fail".data) 5 ⟨0, some defaultStartCode, 0, 0⟩
    rfl rfl (by norm_num)

/-! ## C5 -/

lemma head_attempt_bruteforce_succ (msgs : AdbMessages) (cfg : Config) (sqrtImei : ℚ)
    (device : JsNum → List Char) (n : ℕ) (st : EngineState) :
    (attemptsOf (bruteforce msgs cfg sqrtImei device (n + 1) st).1).head? =
      some st.currentCode := by
  cases hcl : attemptCode msgs cfg.throwOnUnknownErrors (device st.currentCode) with
  | commandInvalidError => simp [bruteforce, hcl]
  | unknownOutputError => simp [bruteforce, hcl]
  | result b =>
    cases b with
    | true => simp [bruteforce, hcl]
    | false =>
      simp only [bruteforce, hcl]
      split <;> simp

/-- C5: the first code a fresh `start` submits to the device is the
generator's output applied to the loaded checkpoint value when the load
returned one, and the generator's output applied to the fixed default
starting code 1000000000000000 when the load returned null. -/
theorem first_attempt_is_generator_of_loaded_state :
    ∀ (msgs : AdbMessages) (cfg : Config) (sqrtImei : ℚ) (device : JsNum → List Char)
      (file : Option (List Char)) (fuel : ℕ), 1 ≤ fuel →
      (attemptsOf (start msgs cfg sqrtImei device file fuel).1).head? =
        some (nextCode ((getLastSavedState file).getD (some defaultStartCode)) sqrtImei) := by
  intro msgs cfg s d file fuel hf
  obtain ⟨n, rfl⟩ : ∃ n, fuel = n + 1 := ⟨fuel - 1, by omega⟩
  have hh := head_attempt_bruteforce_succ msgs cfg s d n
    ⟨0, nextCode ((getLastSavedState file).getD (some defaultStartCode)) s, 0, 0⟩
  simp only [start]
  simp only [attemptsOf_cons_reboot, attemptsOf_cons_gen, attemptsOf_append]
  cases hA : attemptsOf (bruteforce msgs cfg s d (n + 1)
      ⟨0, nextCode ((getLastSavedState file).getD (some defaultStartCode)) s, 0, 0⟩).1 with
  | nil => rw [hA] at hh; simp at hh
  | cons a t =>
    rw [hA] at hh
    simp at hh
    simp [hA, hh]

/-- C5 witness: `first_attempt_is_generator_of_loaded_state` with no
checkpoint file present: the first submitted code is the generator applied
to the default starting code. -/
theorem first_attempt_is_generator_of_loaded_state_witness :
    (attemptsOf (start ⟨"bad".data, "fail".data, "ok".data⟩ ⟨0, 0, false⟩ 2
        (fun _ => "fail".data) none 1).1).head? =
      some (nextCode ((getLastSavedState none).getD (some defaultStartCode)) 2) :=
  first_attempt_is_generator_of_loaded_state ⟨"bad".data, "fail".data, "ok".data⟩
    ⟨0, 0, false⟩ 2 (fun _ => "fail".data) none 1 (by norm_num)


/-! ## C3 -/

/-- The engine state a rejected attempt continues with: the state after the
autoreboot and checkpoint blocks, with `currentCode` overwritten by the
generator's output (source line 137). -/
def contState (cfg : Config) (sqrtImei : ℚ) (st : EngineState) : EngineState :=
  { (saveStep cfg (rebootStep cfg st).2).2 with
    currentCode := nextCode (saveStep cfg (rebootStep cfg st).2).2.currentCode sqrtImei }

lemma bruteforce_succ_reject (msgs : AdbMessages) (cfg : Config) (sqrtImei : ℚ)
    (device : JsNum → List Char) (n : ℕ) (st : EngineState)
    (hcl : attemptCode msgs cfg.throwOnUnknownErrors (device st.currentCode) =
      AttemptOutcome.result false) :
    bruteforce msgs cfg sqrtImei device (n + 1) st =
      if jsNumGe (contState cfg sqrtImei st).currentCode ceiling then
        (Ev.attemptEv st.currentCode :: ((rebootStep cfg st).1 ++
          (saveStep cfg (rebootStep cfg st).2).1 ++
          [Ev.genEv (contState cfg sqrtImei st).currentCode]),
         Outcome.codeNotFound "No combination found")
      else
        (Ev.attemptEv st.currentCode :: ((rebootStep cfg st).1 ++
          (saveStep cfg (rebootStep cfg st).2).1 ++
          Ev.genEv (contState cfg sqrtImei st).currentCode ::
          (bruteforce msgs cfg sqrtImei device n (contState cfg sqrtImei st)).1),
         (bruteforce msgs cfg sqrtImei device n (contState cfg sqrtImei st)).2) := by
  simp only [bruteforce, hcl]
  rfl

lemma bruteforce_attempts_below (msgs : AdbMessages) (cfg : Config) (sqrtImei : ℚ)
    (device : JsNum → List Char) :
    ∀ (fuel : ℕ) (st : EngineState), belowCeiling st.currentCode = true →
      (attemptsOf (bruteforce msgs cfg sqrtImei device fuel st).1).all belowCeiling = true := by
  intro fuel
  induction fuel with
  | zero => intro st _; simp [bruteforce]
  | succ n ih =>
    intro st h
    cases hcl : attemptCode msgs cfg.throwOnUnknownErrors (device st.currentCode) with
    | commandInvalidError => simp [bruteforce, hcl, h]
    | unknownOutputError => simp [bruteforce, hcl, h]
    | result b =>
      cases b with
      | true => simp [bruteforce, hcl, h]
      | false =>
        rw [bruteforce_succ_reject msgs cfg sqrtImei device n st hcl]
        split
        · simp [h]
        · rename_i hlt
          have hge : jsNumGe (contState cfg sqrtImei st).currentCode ceiling = false := by
            cases htmp : jsNumGe (contState cfg sqrtImei st).currentCode ceiling
            · rfl
            · exact absurd htmp hlt
          have hb : belowCeiling (contState cfg sqrtImei st).currentCode = true := by
            unfold belowCeiling
            rw [hge]
            rfl
          simp only [attemptsOf_cons_attempt, attemptsOf_append, attemptsOf_rebootStep,
            attemptsOf_saveStep, attemptsOf_cons_gen, List.nil_append, List.all_cons,
            Bool.and_eq_true]
          exact ⟨h, ih _ hb⟩

/-- C3 (amended): inside the recursive loop the exhaustion boundary is
exact - the run ends with `CodeNotFoundException "No combination found"` at
precisely the generator call whose output first reaches or exceeds the
fixed ceiling 10000000000000000, never before, and every candidate the
loop itself generates and submits is below the ceiling.  (What the original
claim adds beyond this fails: the one generator call made in `start` before
the loop is not checked against the ceiling, so a resumed code whose
successor reaches the ceiling has that successor submitted once to the
device, with the exhaustion error raised only at the following call.) -/
theorem exhaustion_exactly_at_ceiling_within_loop :
    ∀ (msgs : AdbMessages) (cfg : Config) (sqrtImei : ℚ) (device : JsNum → List Char)
      (fuel : ℕ) (st : EngineState),
      exhaustWellTimed (bruteforce msgs cfg sqrtImei device fuel st) = true := by
  intro msgs cfg s d fuel
  induction fuel with
  | zero => intro st; simp [bruteforce, exhaustWellTimed]
  | succ n ih =>
    intro st
    cases hcl : attemptCode msgs cfg.throwOnUnknownErrors (d st.currentCode) with
    | commandInvalidError => simp [bruteforce, hcl, exhaustWellTimed]
    | unknownOutputError => simp [bruteforce, hcl, exhaustWellTimed]
    | result b =>
      cases b with
      | true => simp [bruteforce, hcl, exhaustWellTimed]
      | false =>
        rw [bruteforce_succ_reject msgs cfg s d n st hcl]
        split
        · rename_i hge
          simp [exhaustWellTimed, exhaustPattern, hge]
        · rename_i hlt
          have hge : jsNumGe (contState cfg s st).currentCode ceiling = false := by
            cases htmp : jsNumGe (contState cfg s st).currentCode ceiling
            · rfl
            · exact absurd htmp hlt
          have hb : belowCeiling (contState cfg s st).currentCode = true := by
            unfold belowCeiling
            rw [hge]
            rfl
          have hrest := ih (contState cfg s st)
          have hatts := bruteforce_attempts_below msgs cfg s d n (contState cfg s st) hb
          unfold exhaustWellTimed at hrest ⊢
          rw [Bool.and_eq_true] at hrest
          dsimp only
          rw [Bool.and_eq_true]
          constructor
          · simp only [attemptsOf_cons_attempt, attemptsOf_append, attemptsOf_rebootStep,
              attemptsOf_saveStep, attemptsOf_cons_gen, List.nil_append, List.drop_succ_cons,
              List.drop_zero]
            exact hatts
          · simp only [gensOf_cons_attempt, gensOf_append, gensOf_rebootStep,
              gensOf_saveStep, gensOf_cons_gen, List.nil_append]
            rcases ho : (bruteforce msgs cfg s d n (contState cfg s st)).2 with
              fc | msg | _ | _ | _ <;> rw [ho] at hrest <;> dsimp only at hrest ⊢
            · simp only [List.all_cons, Bool.and_eq_true]
              exact ⟨hb, hrest.2⟩
            · rcases hgl : gensOf (bruteforce msgs cfg s d n (contState cfg s st)).1 with
                _ | ⟨g, gs⟩
              · rw [hgl] at hrest
                simp [exhaustPattern] at hrest
              · rw [hgl] at hrest
                simp only [exhaustPattern, Bool.and_eq_true]
                exact ⟨hb, hrest.2⟩
            · simp only [List.all_cons, Bool.and_eq_true]
              exact ⟨hb, hrest.2⟩
            · simp only [List.all_cons, Bool.and_eq_true]
              exact ⟨hb, hrest.2⟩
            · simp only [List.all_cons, Bool.and_eq_true]
              exact ⟨hb, hrest.2⟩

lemma rebootStep_disabled (st : EngineState) : rebootStep ⟨0, 0, false⟩ st = ([], st) := by
  unfold rebootStep
  simp

lemma saveStep_disabled (st : EngineState) : saveStep ⟨0, 0, false⟩ st = ([], st) := by
  unfold saveStep
  simp

/-- C3 counterexample: the claim as stated is false - a candidate at or above
the ceiling is submitted to the device.  Device identifier 9007199136250225
(the square of 94906265, both exactly representable, so `Math.sqrt` returns
exactly 94906265 and the step is 94906265 * 1024 = 97184015360) with a
checkpoint file holding 9999999999999999: `start` feeds the loaded code to
the generator without any ceiling check and submits the result
10000097184015359 ≥ 10000000000000000 as the run's first attempt; the
space-exhausted error is only raised at the following generator call. -/
theorem ceiling_exceeded_candidate_submitted_on_resume :
    (attemptsOf (start ⟨"bad".data, "fail".data, "ok".data⟩ ⟨0, 0, false⟩ 94906265
        (fun _ => "fail".data) (some ("9999999999999999".data)) 1).1).any
      (fun c => jsNumGe c ceiling) = true := by
  have hload : (getLastSavedState (some ("9999999999999999".data))).getD
      (some defaultStartCode) = some (9999999999999999 : ℚ) := by decide
  have hfirst : nextCode (some (9999999999999999 : ℚ)) 94906265 =
      some ((10000097184015359 : ℤ) : ℚ) :=
    nextCode_some_eq _ _ _ (by norm_num) (by norm_num) (by norm_num)
  have hsecond : nextCode (some ((10000097184015359 : ℤ) : ℚ)) 94906265 =
      some ((10000194368030719 : ℤ) : ℚ) :=
    nextCode_some_eq _ _ _ (by push_cast; norm_num) (by push_cast; norm_num)
      (by push_cast; norm_num)
  have hcl : attemptCode (⟨"bad".data, "fail".data, "ok".data⟩ : AdbMessages) false
      ("fail".data) = AttemptOutcome.result false := by decide
  have hcont : (contState ⟨0, 0, false⟩ 94906265
      ⟨0, some ((10000097184015359 : ℤ) : ℚ), 0, 0⟩).currentCode =
      nextCode (some ((10000097184015359 : ℤ) : ℚ)) 94906265 := by
    simp [contState, saveStep_disabled, rebootStep_disabled]
  have hcond : jsNumGe (contState ⟨0, 0, false⟩ 94906265
      ⟨0, some ((10000097184015359 : ℤ) : ℚ), 0, 0⟩).currentCode ceiling = true := by
    rw [hcont, hsecond]
    simp only [jsNumGe, ceiling, decide_eq_true_eq]
    push_cast
    norm_num
  have hfge : jsNumGe (some (10000097184015359 : ℚ)) ceiling = true := by
    simp only [jsNumGe, ceiling, decide_eq_true_eq]
    norm_num
  simp only [start, hload, hfirst]
  rw [bruteforce_succ_reject _ _ _ _ 0 _ hcl]
  rw [if_pos hcond]
  rw [rebootStep_disabled, saveStep_disabled]
  simp [hfge]

end UnlockBootloader
